import Mathlib

/-!
Verification of the LKH-3 adapter (loggibud/v1/baselines/task1/lkh_3.py).

This file gives a shallow embedding of the adapter code and proves, or refutes,
the properties its specification states about it.  Pure Python functions become
Lean functions; Python exceptions become an explicit error type threaded through
`Except`; file IO becomes explicit passing of an association-list filesystem;
a tour file becomes a list of lines, each either a non-numeric text line or a
line holding one integer.
-/

deriving instance DecidableEq for Except

namespace LKH3

/-- Error kinds. The first four model the exceptions that the Python runtime can
actually raise in the embedded code paths; the last three are the error names the
specification's taxonomy uses, included so that statements about that taxonomy
can be expressed (the embedded code never produces them - the source defines no
such exception classes). -/
inductive PyError where
  | valueError
  | zeroDivisionError
  | indexError
  | fileNotFoundError
  | capacityError
  | encodingError
  | decodingError
deriving DecidableEq, Repr

/-- Geographic point of the domain model. The coordinates play no role in any
property below; they are carried through unchanged (the source stores floats,
modelled here as integers since no claim inspects them). -/
structure Point where
  lat : Int
  lng : Int
deriving DecidableEq, Repr

/-- Delivery of the domain model: an id, a location and a demand size. -/
structure Delivery where
  id : String
  point : Point
  size : Nat
deriving DecidableEq, Repr

/-- CVRP instance: name, depot origin, vehicle capacity and ordered deliveries. -/
structure CVRPInstance where
  name : String
  origin : Point
  vehicle_capacity : Nat
  deliveries : List Delivery
deriving DecidableEq, Repr

/-- One vehicle of a solution: the origin and the ordered deliveries it serves. -/
structure CVRPSolutionVehicle where
  origin : Point
  deliveries : List Delivery
deriving DecidableEq, Repr

/-- CVRP solution: the instance name and the list of vehicles. -/
structure CVRPSolution where
  name : String
  vehicles : List CVRPSolutionVehicle
deriving DecidableEq, Repr

/-- Parameters of the solver call (time limit in seconds, number of runs). -/
structure LKHParams where
  time_limit_s : Nat := 60
  num_runs : Nat := 1
deriving DecidableEq, Repr

/-- DEPOT_NODE = 1, from the source. -/
def DEPOT_NODE : Int := 1

/-- Embeds the Python expression max(delivery.size for delivery in deliveries):
ValueError on an empty sequence, otherwise the maximum, folded from the first
element exactly as Python's max consumes the generator. -/
def maxOfSizes : List Delivery → Except PyError Nat
  | [] => .error .valueError
  | d :: ds => .ok ((ds.map Delivery.size).foldl Nat.max d.size)

/-- Embeds _get_num_vehicles. Python evaluates
ceil(num_deliveries / (vehicle_capacity // max_demand)); a zero divisor at either
division raises ZeroDivisionError, and the ceiling of the exact quotient n / q of
nonnegative integers is (n + q - 1) / q in integer division. -/
def _get_num_vehicles (inst : CVRPInstance) : Except PyError Nat :=
  match maxOfSizes inst.deliveries with
  | .error e => .error e
  | .ok max_demand =>
    if max_demand = 0 then .error .zeroDivisionError
    else if inst.vehicle_capacity / max_demand = 0 then .error .zeroDivisionError
    else .ok ((inst.deliveries.length + inst.vehicle_capacity / max_demand - 1) /
        (inst.vehicle_capacity / max_demand))

/-- One line of a tour file: either a non-numeric text line or a line holding a
single integer (the source applies int(...) to body lines, so the distinction is
whether the line parses as an integer). -/
inductive TourLine where
  | str (s : String)
  | int (z : Int)
deriving DecidableEq, Repr

/-- Embeds line.startswith("TOUR_SECTION"): prefix test on the character
sequence; a line holding an integer never starts with that text. -/
def TourLine.isMarker : TourLine → Bool
  | .str s => "TOUR_SECTION".data.isPrefixOf s.data
  | .int _ => false

/-- Embeds the first loop of read_solution: consume lines until one starting with
TOUR_SECTION is found (that line included); the remaining lines are what the body
generator will see.  When no line matches, the whole file is consumed and the
result is empty. -/
def dropToMarker : List TourLine → List TourLine
  | [] => []
  | l :: ls => if l.isMarker then ls else dropToMarker ls

/-- Embeds read_delivery_nodes_gen: read integer lines until a -1 is seen,
replacing every node larger than num_locations with DEPOT_NODE.  A non-numeric
line raises ValueError from int(...); end of input without the sentinel simply
ends the stream. -/
def readDeliveryNodes (num_locations : Nat) : List TourLine → Except PyError (List Int)
  | [] => .ok []
  | .str _ :: _ => .error .valueError
  | .int z :: rest =>
    if z = -1 then .ok []
    else
      match readDeliveryNodes num_locations rest with
      | .error e => .error e
      | .ok zs => .ok ((if z ≤ (num_locations : Int) then z else DEPOT_NODE) :: zs)

/-- Fuelled worker for splitRuns (fuel bounds the length of the remaining list, so
the recursion is structural and the kernel can evaluate it).  A depot token is
skipped; any other token starts a run extending over the following non-depot
tokens. -/
def splitRunsF : Nat → List Int → List (List Int)
  | _, [] => []
  | 0, _ :: _ => []
  | fuel + 1, x :: xs =>
    if x = DEPOT_NODE then splitRunsF fuel xs
    else (x :: xs.takeWhile (fun y => y != DEPOT_NODE)) ::
      splitRunsF fuel (xs.dropWhile (fun y => y != DEPOT_NODE))

/-- Embeds groupby(all_route_nodes, key = lambda x: x == DEPOT_NODE) followed by
keeping the groups whose key is False: the maximal runs of non-depot tokens, in
order. -/
def splitRuns (l : List Int) : List (List Int) := splitRunsF l.length l

/-- Embeds Python list subscription lst[i]: a negative index is first shifted by
the length (so -1 is the last element); an index that is still negative, or not
below the length, raises IndexError. -/
def pyGetElem {α : Type} (l : List α) (i : Int) : Except PyError α :=
  let j : Int := if i < 0 then i + l.length else i
  if j < 0 then .error .indexError
  else
    match l.get? j.toNat with
    | some a => .ok a
    | none => .error .indexError

/-- Embeds write_route: deliveries start at node 2 in the output file but at
index 0 in the instance, so node is mapped through instance.deliveries[node - 2]
with Python subscription semantics. -/
def write_route (inst : CVRPInstance) (nodes_group : List Int) :
    Except PyError CVRPSolutionVehicle :=
  match nodes_group.mapM (fun node => pyGetElem inst.deliveries (node - 2)) with
  | .error e => .error e
  | .ok ds => .ok { origin := inst.origin, deliveries := ds }

/-- Embeds the part of read_solution that runs after the header has been skipped:
read the nodes, split them into runs, and build one vehicle per run. -/
def decode_body (inst : CVRPInstance) (body : List TourLine) :
    Except PyError CVRPSolution :=
  let num_locations := inst.deliveries.length + 1
  match readDeliveryNodes num_locations body with
  | .error e => .error e
  | .ok all_route_nodes =>
    match (splitRuns all_route_nodes).mapM (write_route inst) with
    | .error e => .error e
    | .ok routes => .ok { name := inst.name, vehicles := routes }

/-- Embeds read_solution applied to the content of the output tour file. -/
def read_solution (inst : CVRPInstance) (file : List TourLine) :
    Except PyError CVRPSolution :=
  decode_body inst (dropToMarker file)

/-- Filesystem model: an association list from file name to file content
(a list of lines). -/
abbrev FileSys := List (String × List TourLine)

/-- Creates or overwrites a file. -/
def fsWrite (fs : FileSys) (name : String) (lines : List TourLine) : FileSys :=
  fs.filter (fun p => p.1 != name) ++ [(name, lines)]

/-- Reads a file if it exists. -/
def fsLookup (fs : FileSys) (name : String) : Option (List TourLine) :=
  (fs.find? (fun p => p.1 == name)).map Prod.snd

/-- Embeds os.remove: deletes the file, FileNotFoundError if absent. -/
def fsRemove (fs : FileSys) (name : String) : Except PyError FileSys :=
  if fs.any (fun p => p.1 == name) then .ok (fs.filter (fun p => p.1 != name))
  else .error .fileNotFoundError

/-- Names of the three auxiliary files, from _get_auxiliary_file_names. -/
structure AuxFileNames where
  input_vrp_file : String
  input_par_file : String
  output_tour_file : String
deriving DecidableEq, Repr

/-- Embeds _get_auxiliary_file_names. -/
def _get_auxiliary_file_names (inst : CVRPInstance) : AuxFileNames :=
  { input_vrp_file := "vrp_input_temp_" ++ inst.name ++ ".vrp"
    input_par_file := "vrp_input_temp_" ++ inst.name ++ ".par"
    output_tour_file := "vrp_output_temp_" ++ inst.name ++ ".vrp" }

/-- Content of the .par parameter file written by convert_instance_file, line by
line as the source writes it. -/
def parContents (aux : AuxFileNames) (params : LKHParams) (num_vehicles : Nat) :
    List TourLine :=
  [.str "SPECIAL",
   .str ("PROBLEM_FILE = " ++ aux.input_vrp_file),
   .str "MTSP_OBJECTIVE = MINSUM",
   .str ("RUNS = " ++ toString params.num_runs),
   .str ("TOUR_FILE = " ++ aux.output_tour_file),
   .str ("TIME_LIMIT = " ++ toString params.time_limit_s),
   .str ("VEHICLES = " ++ toString num_vehicles)]

/-- Modelled from the spec: to_tsplib (from loggibud.v1.data_conversion, a module
of this repository that is not under src/) serializes the instance into the
TSPLIB problem file with the given name.  Per the spec it is a serialization of
the locations, demands and capacity; its text is inspected by no claim, so it is
modelled as a single opaque text line. -/
def to_tsplib (inst : CVRPInstance) (fs : FileSys) (file_name : String) : FileSys :=
  fsWrite fs file_name [.str ("TSPLIB problem for " ++ inst.name)]

/-- Embeds convert_instance_file: write the .vrp problem file via to_tsplib, then
estimate the vehicle count, then write the .par parameter file.  The filesystem
reached so far is returned alongside the outcome, since a raised exception leaves
the files already written in place. -/
def convert_instance_file (inst : CVRPInstance) (params : LKHParams) (fs : FileSys) :
    Except PyError Unit × FileSys :=
  let aux := _get_auxiliary_file_names inst
  let fs1 := to_tsplib inst fs aux.input_vrp_file
  match _get_num_vehicles inst with
  | .error e => (.error e, fs1)
  | .ok num_vehicles =>
    (.ok (), fsWrite fs1 aux.input_par_file (parContents aux params num_vehicles))

/-- Modelled from the spec: solve_lkh launches the external LKH binary (an opaque
black-box process, out of scope per the spec) on the parameter file and waits;
the process writes the output tour file.  The tour text the solver produces is a
parameter of the model. -/
def solve_lkh (inst : CVRPInstance) (solver_output : List TourLine) (fs : FileSys) :
    FileSys :=
  fsWrite fs (_get_auxiliary_file_names inst).output_tour_file solver_output

/-- Embeds the file-opening wrapper of read_solution: open the output tour file
(FileNotFoundError if the solver did not write it) and decode its lines. -/
def read_solution_fs (inst : CVRPInstance) (fs : FileSys) :
    Except PyError CVRPSolution × FileSys :=
  match fsLookup fs (_get_auxiliary_file_names inst).output_tour_file with
  | none => (.error .fileNotFoundError, fs)
  | some file => (read_solution inst file, fs)

/-- Embeds remove_auxiliary_files: os.remove each of the three auxiliary files in
dictionary order (.vrp, .par, tour); a failing removal leaves the rest in place. -/
def remove_auxiliary_files (inst : CVRPInstance) (fs : FileSys) :
    Except PyError Unit × FileSys :=
  let aux := _get_auxiliary_file_names inst
  match fsRemove fs aux.input_vrp_file with
  | .error e => (.error e, fs)
  | .ok fs1 =>
    match fsRemove fs1 aux.input_par_file with
    | .error e => (.error e, fs1)
    | .ok fs2 =>
      match fsRemove fs2 aux.output_tour_file with
      | .error e => (.error e, fs2)
      | .ok fs3 => (.ok (), fs3)

/-- Embeds solve: convert, call the external solver, read the solution, then
remove the auxiliary files.  The source sequences the four stages with no
try/finally, so an exception in any stage propagates immediately with the
filesystem as that stage left it. -/
def solve (inst : CVRPInstance) (params : Option LKHParams)
    (solver_output : List TourLine) (fs : FileSys) :
    Except PyError CVRPSolution × FileSys :=
  let p := match params with | some q => q | none => {}
  match convert_instance_file inst p fs with
  | (.error e, fs1) => (.error e, fs1)
  | (.ok _, fs1) =>
    let fs2 := solve_lkh inst solver_output fs1
    match read_solution_fs inst fs2 with
    | (.error e, fs3) => (.error e, fs3)
    | (.ok sol, fs3) =>
      match remove_auxiliary_files inst fs3 with
      | (.error e, fs4) => (.error e, fs4)
      | (.ok _, fs4) => (.ok sol, fs4)

/-- Spec-side maximum demand of an instance, max(d_i) in the spec's words. -/
def maxDemand (inst : CVRPInstance) : Nat :=
  (inst.deliveries.map Delivery.size).foldl Nat.max 0

/-- Spec-side total demand of an instance, sum(demands) in the spec's words. -/
def sumDemands (inst : CVRPInstance) : Nat :=
  (inst.deliveries.map Delivery.size).sum

/-- Spec-side description of the splitting step, in the words of the spec: the
normalized token sequence decomposes into maximal runs of non-depot tokens, with
depot occurrences as separators and no empty runs.  A derivation of
RunDecomp tokens runs witnesses that runs is that decomposition of tokens. -/
inductive RunDecomp : List Int → List (List Int) → Prop where
  | nil : RunDecomp [] []
  | depot (l : List Int) (rs : List (List Int)) :
      RunDecomp l rs → RunDecomp (DEPOT_NODE :: l) rs
  | run (r l : List Int) (rs : List (List Int)) (hne : r ≠ [])
      (hnd : ∀ x ∈ r, x ≠ DEPOT_NODE)
      (hsep : l = [] ∨ l.head? = some DEPOT_NODE) :
      RunDecomp l rs → RunDecomp (r ++ l) (r :: rs)

/-- Depot point used by the concrete test instances below. -/
def pt0 : Point := ⟨0, 0⟩

/-- Shorthand for a delivery at the depot point with a given id and size. -/
def mkDelivery (i : String) (sz : Nat) : Delivery := { id := i, point := pt0, size := sz }

/-- Tour body of spec Example 1 (what follows the marker line in fileEx1). -/
def bodyEx1 : List TourLine :=
  [.int 1, .int 2, .int 3, .int 7, .int 4, .int 5, .int 6, .int (-1)]

/-- Concrete instance with five unit-demand deliveries (spec Examples 1 and 3). -/
def inst5 : CVRPInstance :=
  { name := "ex", origin := pt0, vehicle_capacity := 100,
    deliveries := [mkDelivery "d0" 1, mkDelivery "d1" 1, mkDelivery "d2" 1,
                   mkDelivery "d3" 1, mkDelivery "d4" 1] }

/-- Tour file of spec Example 1: body 1 2 3 7 4 5 6 -1. -/
def fileEx1 : List TourLine :=
  [.str "NAME : ex", .str "TOUR_SECTION", .int 1, .int 2, .int 3, .int 7,
   .int 4, .int 5, .int 6, .int (-1)]

/-- Tour file of spec Example 3: body 1 1 2 3 1 -1. -/
def fileEx3 : List TourLine :=
  [.str "NAME : ex", .str "TOUR_SECTION", .int 1, .int 1, .int 2, .int 3,
   .int 1, .int (-1)]

/-- Concrete instance of spec Example 2: demands 3, 4, 5 and capacity 6. -/
def inst345 : CVRPInstance :=
  { name := "e2", origin := pt0, vehicle_capacity := 6,
    deliveries := [mkDelivery "a" 3, mkDelivery "b" 4, mkDelivery "c" 5] }

/-- Concrete instance whose single delivery (demand 7) exceeds the capacity 6. -/
def instC3 : CVRPInstance :=
  { name := "c3", origin := pt0, vehicle_capacity := 6,
    deliveries := [mkDelivery "d0" 7] }

/-- Concrete instance with two deliveries, for the node-token-0 decoding case. -/
def instC6 : CVRPInstance :=
  { name := "c6", origin := pt0, vehicle_capacity := 10,
    deliveries := [mkDelivery "d0" 1, mkDelivery "d1" 1] }

/-- Tour file whose body holds the node token 0 (mapped index -2). -/
def fileC6 : List TourLine := [.str "TOUR_SECTION", .int 1, .int 0, .int (-1)]

/-- Concrete instance with one delivery, for the malformed-file cases. -/
def instC7 : CVRPInstance :=
  { name := "c7", origin := pt0, vehicle_capacity := 10,
    deliveries := [mkDelivery "d0" 1] }

/-- Tour file with no TOUR_SECTION marker line at all. -/
def fileNoMarker : List TourLine := [.str "NAME : c7", .str "COMMENT : no body"]

/-- Tour file whose body reaches end of input without the -1 sentinel. -/
def fileNoSentinel : List TourLine := [.str "TOUR_SECTION", .int 1, .int 2]

/-- Concrete instance with one delivery, used for the solve-pipeline runs. -/
def instC8 : CVRPInstance :=
  { name := "i8", origin := pt0, vehicle_capacity := 1,
    deliveries := [mkDelivery "d0" 1] }

/-- Solver tour output whose body makes write_route raise IndexError
(token -5 maps to index -7, below -(number of deliveries)). -/
def badOut : List TourLine := [.str "TOUR_SECTION", .int 1, .int (-5), .int (-1)]

/-- Well-formed solver tour output for instC8: the single delivery on one route. -/
def goodOut : List TourLine := [.str "TOUR_SECTION", .int 1, .int 2, .int (-1)]

/-- Concrete instance with zero deliveries. -/
def instC9 : CVRPInstance :=
  { name := "c9", origin := pt0, vehicle_capacity := 10, deliveries := [] }

/-- Ceiling of the exact rational quotient of naturals, as the integer-division
formula the embedding uses for Python's ceil(n / q). -/
theorem ceilq_eq_natFormula (n q : ℕ) (hq : 0 < q) :
    ⌈(n : ℚ) / (q : ℚ)⌉₊ = (n + q - 1) / q := by
  apply le_antisymm
  · rw [Nat.ceil_le, div_le_iff₀ (by exact_mod_cast hq)]
    have h1 : n ≤ ((n + q - 1) / q) * q := by
      have h2 := Nat.div_add_mod (n + q - 1) q
      have h3 := Nat.mod_lt (n + q - 1) hq
      have h4 : q * ((n + q - 1) / q) = ((n + q - 1) / q) * q := Nat.mul_comm _ _
      omega
    exact_mod_cast h1
  · have hc : (n : ℚ) / q ≤ (⌈(n : ℚ) / q⌉₊ : ℚ) := Nat.le_ceil _
    rw [div_le_iff₀ (by exact_mod_cast hq)] at hc
    have hn : n ≤ ⌈(n : ℚ) / q⌉₊ * q := by exact_mod_cast hc
    have h5 : (n + q - 1) / q < ⌈(n : ℚ) / q⌉₊ + 1 := by
      rw [Nat.div_lt_iff_lt_mul hq]
      have h6 : (⌈(n : ℚ) / q⌉₊ + 1) * q = ⌈(n : ℚ) / q⌉₊ * q + q := by ring
      omega
    omega

/-- Fold of Nat.max never drops below its initial value. -/
theorem le_foldl_max (l : List ℕ) (a : ℕ) : a ≤ l.foldl Nat.max a := by
  induction l generalizing a with
  | nil => exact le_rfl
  | cons x xs ih => exact le_trans (Nat.le_max_left a x) (ih (Nat.max a x))

/-- Every member of a list is bounded by a Nat.max fold over it. -/
theorem mem_le_foldl_max {x : ℕ} (l : List ℕ) (a : ℕ) (hx : x ∈ l) :
    x ≤ l.foldl Nat.max a := by
  induction l generalizing a with
  | nil => cases hx
  | cons y ys ih =>
    cases hx with
    | head => exact le_trans (Nat.le_max_right a x) (le_foldl_max ys _)
    | tail _ h => exact ih _ h

/-- On a non-empty delivery list, the embedded Python max agrees with the
spec-side maximum demand. -/
theorem maxOfSizes_eq_ok (inst : CVRPInstance) (hne : inst.deliveries ≠ []) :
    maxOfSizes inst.deliveries = .ok (maxDemand inst) := by
  cases h : inst.deliveries with
  | nil => exact absurd h hne
  | cons d ds =>
    simp only [maxOfSizes, maxDemand, h, List.map_cons, List.foldl_cons, Nat.zero_max]

/-- Every delivery's demand is bounded by the spec-side maximum demand. -/
theorem size_le_maxDemand {inst : CVRPInstance} {d : Delivery}
    (hd : d ∈ inst.deliveries) : d.size ≤ maxDemand inst :=
  mem_le_foldl_max _ _ (List.mem_map_of_mem Delivery.size hd)

/-- C1: for every instance with at least one delivery, positive demands, and
maximum demand at most the vehicle capacity, the vehicle-count estimate equals
the true ceiling of n divided by the true floor of capacity over maximum demand. -/
theorem C1_estimate_eq_ceil (inst : CVRPInstance)
    (hne : inst.deliveries ≠ [])
    (hpos : ∀ d ∈ inst.deliveries, 0 < d.size)
    (hfit : maxDemand inst ≤ inst.vehicle_capacity) :
    _get_num_vehicles inst =
      .ok ⌈(inst.deliveries.length : ℚ) /
          ((⌊(inst.vehicle_capacity : ℚ) / (maxDemand inst : ℚ)⌋₊ : ℕ) : ℚ)⌉₊ := by
  obtain ⟨d, ds, hl⟩ : ∃ d ds, inst.deliveries = d :: ds := by
    cases h : inst.deliveries with
    | nil => exact absurd h hne
    | cons d ds => exact ⟨d, ds, rfl⟩
  have hdmem : d ∈ inst.deliveries := by rw [hl]; exact List.mem_cons_self d ds
  have hm : 0 < maxDemand inst := lt_of_lt_of_le (hpos d hdmem) (size_le_maxDemand hdmem)
  have hq : 0 < inst.vehicle_capacity / maxDemand inst :=
    (Nat.one_le_div_iff hm).mpr hfit
  have hfl : ⌊(inst.vehicle_capacity : ℚ) / (maxDemand inst : ℚ)⌋₊ =
      inst.vehicle_capacity / maxDemand inst := by
    rw [Nat.floor_div_nat, Nat.floor_natCast]
  rw [hfl, ceilq_eq_natFormula _ _ hq]
  unfold _get_num_vehicles
  rw [maxOfSizes_eq_ok inst hne]
  simp [Nat.pos_iff_ne_zero.mp hm, Nat.pos_iff_ne_zero.mp hq]

/-- C1 witness: demands 3, 4, 5 with capacity 6 satisfy the hypotheses, the
estimate the theorem describes evaluates there, and its value is 3. -/
theorem C1_estimate_eq_ceil_witness :
    inst345.deliveries ≠ [] ∧ (∀ d ∈ inst345.deliveries, 0 < d.size) ∧
    maxDemand inst345 ≤ inst345.vehicle_capacity ∧
    _get_num_vehicles inst345 =
      .ok ⌈(inst345.deliveries.length : ℚ) /
          ((⌊(inst345.vehicle_capacity : ℚ) / (maxDemand inst345 : ℚ)⌋₊ : ℕ) : ℚ)⌉₊ ∧
    _get_num_vehicles inst345 = .ok 3 :=
  ⟨by decide, by decide, by decide,
   C1_estimate_eq_ceil inst345 (by decide) (by decide) (by decide), by decide⟩

/-- C2: whenever the per-vehicle packing count is at least one, the estimator
succeeds and its value is at least the ceiling of total demand over capacity. -/
theorem C2_never_underestimates (inst : CVRPInstance)
    (hne : inst.deliveries ≠ [])
    (hq : 1 ≤ inst.vehicle_capacity / maxDemand inst) :
    ∃ k, _get_num_vehicles inst = .ok k ∧
      ⌈(sumDemands inst : ℚ) / (inst.vehicle_capacity : ℚ)⌉₊ ≤ k := by
  have hm : 0 < maxDemand inst := by
    rcases Nat.eq_zero_or_pos (maxDemand inst) with h | h
    · rw [h, Nat.div_zero] at hq; omega
    · exact h
  have hmC : maxDemand inst ≤ inst.vehicle_capacity := (Nat.one_le_div_iff hm).mp hq
  have hC : 0 < inst.vehicle_capacity := lt_of_lt_of_le hm hmC
  have hqpos : 0 < inst.vehicle_capacity / maxDemand inst := hq
  refine ⟨(inst.deliveries.length + inst.vehicle_capacity / maxDemand inst - 1) /
      (inst.vehicle_capacity / maxDemand inst), ?_, ?_⟩
  · unfold _get_num_vehicles
    rw [maxOfSizes_eq_ok inst hne]
    simp [Nat.pos_iff_ne_zero.mp hm, Nat.pos_iff_ne_zero.mp hqpos]
  · rw [← ceilq_eq_natFormula _ _ hqpos]
    apply Nat.ceil_le_ceil
    rw [div_le_div_iff₀ (by exact_mod_cast hC) (by exact_mod_cast hqpos)]
    have h1 : sumDemands inst ≤ inst.deliveries.length * maxDemand inst := by
      have h2 := List.sum_le_card_nsmul (inst.deliveries.map Delivery.size)
        (maxDemand inst) (fun x hx => mem_le_foldl_max _ _ hx)
      simpa [sumDemands, smul_eq_mul] using h2
    have h3 : (inst.vehicle_capacity / maxDemand inst) * maxDemand inst ≤
        inst.vehicle_capacity := Nat.div_mul_le_self _ _
    have h4 : sumDemands inst * (inst.vehicle_capacity / maxDemand inst) ≤
        inst.deliveries.length * inst.vehicle_capacity := by
      calc sumDemands inst * (inst.vehicle_capacity / maxDemand inst)
          ≤ (inst.deliveries.length * maxDemand inst) *
            (inst.vehicle_capacity / maxDemand inst) := Nat.mul_le_mul_right _ h1
        _ = inst.deliveries.length *
            ((inst.vehicle_capacity / maxDemand inst) * maxDemand inst) := by ring
        _ ≤ inst.deliveries.length * inst.vehicle_capacity := Nat.mul_le_mul_left _ h3
    exact_mod_cast h4

/-- C2 witness: the instance with demands 3, 4, 5 and capacity 6 satisfies the
hypotheses and the estimator dominates the ceiling bound there. -/
theorem C2_never_underestimates_witness :
    inst345.deliveries ≠ [] ∧ 1 ≤ inst345.vehicle_capacity / maxDemand inst345 ∧
    ∃ k, _get_num_vehicles inst345 = .ok k ∧
      ⌈(sumDemands inst345 : ℚ) / (inst345.vehicle_capacity : ℚ)⌉₊ ≤ k :=
  ⟨by decide, by decide, C2_never_underestimates inst345 (by decide) (by decide)⟩

/-- C3 counterexample: on a delivery of demand 7 with capacity 6 the estimator
fails with ZeroDivisionError, not with the CapacityError the claim requires (the
source defines no CapacityError at all). -/
theorem C3_counterexample :
    _get_num_vehicles instC3 = .error .zeroDivisionError ∧
    _get_num_vehicles instC3 ≠ .error .capacityError := by decide

/-- C3 amended: when some delivery exceeds the vehicle capacity (so the
per-vehicle packing count floors to zero), the estimator fails with
ZeroDivisionError raised by the division. -/
theorem C3_amended_zero_division (inst : CVRPInstance)
    (hne : inst.deliveries ≠ [])
    (h0 : inst.vehicle_capacity / maxDemand inst = 0) :
    _get_num_vehicles inst = .error .zeroDivisionError := by
  unfold _get_num_vehicles
  rw [maxOfSizes_eq_ok inst hne]
  by_cases hm : maxDemand inst = 0
  · simp [hm]
  · simp [hm, h0]

/-- C3 amended witness: the demand-7 capacity-6 instance satisfies the
hypotheses and the estimator fails with ZeroDivisionError there. -/
theorem C3_amended_zero_division_witness :
    instC3.deliveries ≠ [] ∧ instC3.vehicle_capacity / maxDemand instC3 = 0 ∧
    _get_num_vehicles instC3 = .error .zeroDivisionError :=
  ⟨by decide, by decide, C3_amended_zero_division instC3 (by decide) (by decide)⟩

/-- Setting a token strictly above the threshold to the depot token leaves the
normalized node stream unchanged, since both sides normalize to DEPOT_NODE. -/
theorem readDeliveryNodes_set_overflow (N : ℕ) (body : List TourLine) (i : ℕ) (z : Int)
    (hget : body.get? i = some (.int z)) (hz : (N : Int) < z) :
    readDeliveryNodes N (body.set i (.int DEPOT_NODE)) = readDeliveryNodes N body := by
  induction body generalizing i with
  | nil => simp at hget
  | cons l ls ih =>
    cases i with
    | zero =>
      obtain rfl : l = .int z := by simpa using hget
      have hzpos : (0 : Int) ≤ (N : Int) := Int.natCast_nonneg N
      simp only [List.set_cons_zero]
      simp [readDeliveryNodes, DEPOT_NODE, show z ≠ -1 by omega,
        show ¬ z ≤ (N : Int) by omega, ite_self]
    | succ j =>
      have hget2 : ls.get? j = some (.int z) := by simpa using hget
      simp only [List.set_cons_succ]
      cases l with
      | str s => simp [readDeliveryNodes]
      | int w =>
        simp only [readDeliveryNodes]
        rw [ih j hget2]

/-- C4: a token strictly greater than n + 1 decodes exactly as the literal depot
token 1 would in its place. -/
theorem C4_overflow_decodes_as_depot (inst : CVRPInstance) (body : List TourLine)
    (i : ℕ) (z : Int) (hget : body.get? i = some (.int z))
    (hz : (inst.deliveries.length : Int) + 1 < z) :
    decode_body inst body = decode_body inst (body.set i (.int DEPOT_NODE)) := by
  unfold decode_body
  simp only [readDeliveryNodes_set_overflow (inst.deliveries.length + 1) body i z hget
    (by push_cast; omega)]

/-- C4 witness: in the Example 1 body the token 7 exceeds n + 1 = 6, and the body
decodes identically with that token replaced by the depot token. -/
theorem C4_overflow_decodes_as_depot_witness :
    bodyEx1.get? 3 = some (.int 7) ∧ (inst5.deliveries.length : Int) + 1 < 7 ∧
    decode_body inst5 bodyEx1 = decode_body inst5 (bodyEx1.set 3 (.int DEPOT_NODE)) :=
  ⟨by decide, by decide,
   C4_overflow_decodes_as_depot inst5 bodyEx1 3 7 (by decide) (by decide)⟩

/-- Fuel does not matter for splitRunsF once it covers the list length. -/
theorem splitRunsF_congr (f1 : ℕ) : ∀ (f2 : ℕ) (l : List Int), l.length ≤ f1 →
    l.length ≤ f2 → splitRunsF f1 l = splitRunsF f2 l := by
  induction f1 with
  | zero =>
    intro f2 l h1 _
    have hl : l = [] := List.length_eq_zero.mp (Nat.le_zero.mp h1)
    subst hl
    cases f2 <;> rfl
  | succ g ih =>
    intro f2 l h1 h2
    cases l with
    | nil => cases f2 <;> rfl
    | cons x xs =>
      cases f2 with
      | zero => simp at h2
      | succ g2 =>
        simp only [splitRunsF]
        by_cases hx : x = DEPOT_NODE
        · rw [if_pos hx, if_pos hx]
          exact ih g2 xs (by simp at h1; omega) (by simp at h2; omega)
        · rw [if_neg hx, if_neg hx]
          have hd : (xs.dropWhile (fun y => y != DEPOT_NODE)).length ≤ xs.length :=
            (List.dropWhile_sublist _).length_le
          rw [ih g2 _ (by simp at h1; omega) (by simp at h2; omega)]

/-- Unfolding equation: splitting the empty token list. -/
theorem splitRuns_nil : splitRuns [] = [] := rfl

/-- Unfolding equation: a leading depot token is skipped. -/
theorem splitRuns_cons_depot (xs : List Int) :
    splitRuns (DEPOT_NODE :: xs) = splitRuns xs := rfl

/-- Unfolding equation: a leading non-depot token opens a maximal run. -/
theorem splitRuns_cons_run (x : Int) (xs : List Int) (hx : x ≠ DEPOT_NODE) :
    splitRuns (x :: xs) =
      (x :: xs.takeWhile (fun y => y != DEPOT_NODE)) ::
        splitRuns (xs.dropWhile (fun y => y != DEPOT_NODE)) := by
  unfold splitRuns
  simp only [List.length_cons, splitRunsF, if_neg hx]
  congr 1
  exact splitRunsF_congr xs.length _ _ ((List.dropWhile_sublist _).length_le) le_rfl

/-- What remains after dropping non-depot tokens is empty or starts with the
depot token. -/
theorem dropWhileDepot_head (xs : List Int) :
    xs.dropWhile (fun y => y != DEPOT_NODE) = [] ∨
    (xs.dropWhile (fun y => y != DEPOT_NODE)).head? = some DEPOT_NODE := by
  induction xs with
  | nil => exact Or.inl rfl
  | cons x xs ih =>
    by_cases hx : x = DEPOT_NODE
    · right
      rw [List.dropWhile_cons]
      simp [hx]
    · rw [List.dropWhile_cons]
      simpa [hx] using ih

/-- Auxiliary strong induction: splitRuns computes a maximal-run decomposition. -/
theorem runDecomp_splitRuns_aux (n : ℕ) : ∀ nodes : List Int, nodes.length ≤ n →
    RunDecomp nodes (splitRuns nodes) := by
  induction n with
  | zero =>
    intro nodes h
    have hl : nodes = [] := List.length_eq_zero.mp (Nat.le_zero.mp h)
    subst hl
    exact RunDecomp.nil
  | succ m ih =>
    intro nodes h
    cases nodes with
    | nil => exact RunDecomp.nil
    | cons x xs =>
      by_cases hx : x = DEPOT_NODE
      · subst hx
        rw [splitRuns_cons_depot]
        exact RunDecomp.depot _ _ (ih xs (by simp at h; omega))
      · rw [splitRuns_cons_run x xs hx]
        have hsplit : x :: xs =
            (x :: xs.takeWhile (fun y => y != DEPOT_NODE)) ++
              xs.dropWhile (fun y => y != DEPOT_NODE) := by
          simp [List.takeWhile_append_dropWhile]
        rw [hsplit]
        apply RunDecomp.run
        · simp
        · intro y hy
          rcases List.mem_cons.mp hy with rfl | hy2
          · exact hx
          · simpa using List.mem_takeWhile_imp hy2
        · exact dropWhileDepot_head xs
        · apply ih
          have hd : (xs.dropWhile (fun y => y != DEPOT_NODE)).length ≤ xs.length :=
            (List.dropWhile_sublist _).length_le
          simp at h; omega

/-- splitRuns computes a maximal-run decomposition of any token list. -/
theorem runDecomp_splitRuns (nodes : List Int) : RunDecomp nodes (splitRuns nodes) :=
  runDecomp_splitRuns_aux nodes.length nodes le_rfl

/-- Every run of a maximal-run decomposition is non-empty and depot-free. -/
theorem runDecomp_sound {nodes : List Int} {rs : List (List Int)}
    (h : RunDecomp nodes rs) : ∀ r ∈ rs, r ≠ [] ∧ ∀ x ∈ r, x ≠ DEPOT_NODE := by
  induction h with
  | nil => intro r hr; cases hr
  | depot l rs _ ih => exact ih
  | run r l rs hne hnd hsep _ ih =>
    intro s hs
    rcases List.mem_cons.mp hs with rfl | hs2
    · exact ⟨hne, hnd⟩
    · exact ih s hs2

/-- C5: the decoder splits the normalized tokens into maximal runs of non-depot
tokens with depot occurrences as separators, no run is empty, and the two
concrete bodies of spec Examples 1 and 3 decode to the stated routes. -/
theorem C5_maximal_runs :
    (∀ nodes : List Int, RunDecomp nodes (splitRuns nodes)) ∧
    (∀ nodes : List Int, ∀ r ∈ splitRuns nodes, r ≠ [] ∧ ∀ x ∈ r, x ≠ DEPOT_NODE) ∧
    read_solution inst5 fileEx1 =
      .ok { name := "ex",
            vehicles :=
              [{ origin := pt0, deliveries := [mkDelivery "d0" 1, mkDelivery "d1" 1] },
               { origin := pt0,
                 deliveries := [mkDelivery "d2" 1, mkDelivery "d3" 1, mkDelivery "d4" 1] }] } ∧
    read_solution inst5 fileEx3 =
      .ok { name := "ex",
            vehicles :=
              [{ origin := pt0, deliveries := [mkDelivery "d0" 1, mkDelivery "d1" 1] }] } :=
  ⟨runDecomp_splitRuns, fun nodes => runDecomp_sound (runDecomp_splitRuns nodes),
   by decide, by decide⟩

/-- C5 witness: the maximal-run decomposition evaluated on a small concrete
token list with leading and trailing depot tokens. -/
theorem C5_maximal_runs_witness : RunDecomp [1, 2, 3, 1] (splitRuns [1, 2, 3, 1]) :=
  C5_maximal_runs.1 [1, 2, 3, 1]

/-- C6 counterexample: with two deliveries, the body 1 0 -1 contains the node
token 0, whose mapped index 0 - 2 = -2 lies outside [0, n); the claim requires a
failure, but Python list subscription resolves the negative index by wrap-around
and the decoder silently returns delivery 0. -/
theorem C6_counterexample :
    read_solution instC6 fileC6 =
      .ok { name := "c6",
            vehicles := [{ origin := pt0, deliveries := [mkDelivery "d0" 1] }] } ∧
    read_solution instC6 fileC6 ≠ .error .indexError ∧
    read_solution instC6 fileC6 ≠ .error .decodingError := by decide

/-- C6 amended: a node token k maps to delivery index k - 2 when that index is in
[0, n); a mapped index in [-n, 0) wraps around Python-style to delivery
n + (k - 2); only a mapped index below -n makes the decoder fail, with
IndexError. -/
theorem C6_amended_indexing (inst : CVRPInstance) (k : Int) (g : List Int) :
    (0 ≤ k - 2 → ∀ d, inst.deliveries.get? (k - 2).toNat = some d →
      pyGetElem inst.deliveries (k - 2) = .ok d) ∧
    (k - 2 < 0 → -(inst.deliveries.length : Int) ≤ k - 2 →
      ∀ d, inst.deliveries.get? ((inst.deliveries.length : Int) + (k - 2)).toNat = some d →
      pyGetElem inst.deliveries (k - 2) = .ok d) ∧
    (k - 2 < -(inst.deliveries.length : Int) →
      write_route inst (k :: g) = .error .indexError) := by
  refine ⟨?_, ?_, ?_⟩
  · intro h0 d hd
    have hc1 : ¬ k - 2 < 0 := by omega
    simp only [pyGetElem, if_neg hc1]
    rw [hd]
  · intro h0 hn d hd
    have hc2 : ¬ k - 2 + (inst.deliveries.length : Int) < 0 := by omega
    simp only [pyGetElem, if_pos h0, if_neg hc2]
    rw [show k - 2 + (inst.deliveries.length : Int) =
        (inst.deliveries.length : Int) + (k - 2) by ring, hd]
  · intro h0
    have hc1 : k - 2 < 0 := by omega
    have hc2 : k - 2 + (inst.deliveries.length : Int) < 0 := by omega
    have hfail : pyGetElem inst.deliveries (k - 2) = .error .indexError := by
      simp only [pyGetElem, if_pos hc1, if_pos hc2]
    unfold write_route
    simp only [List.mapM_cons, hfail]
    rfl

/-- C6 amended witness: with one delivery, the node token 0 maps to index -2,
which lies below -n = -1, and the route writer fails with IndexError. -/
theorem C6_amended_indexing_witness :
    (0 : Int) - 2 < -(instC7.deliveries.length : Int) ∧
    write_route instC7 [0] = .error .indexError :=
  ⟨by decide, (C6_amended_indexing instC7 0 []).2.2 (by decide)⟩

/-- Skipping to the marker consumes the whole file when no line is a marker. -/
theorem dropToMarker_nil_of_no_marker (file : List TourLine)
    (h : ∀ l ∈ file, l.isMarker = false) : dropToMarker file = [] := by
  induction file with
  | nil => rfl
  | cons l ls ih =>
    have hl : l.isMarker = false := h l (List.mem_cons_self l ls)
    simp only [dropToMarker, hl, Bool.false_eq_true, if_false]
    exact ih fun x hx => h x (List.mem_cons_of_mem _ hx)

/-- C7 counterexamples packaged with the amended behavior: a file with no marker
decodes to the empty solution and a body with no sentinel decodes every token
read to end of input, never a DecodingError. -/
theorem C7_amended_lenient (inst : CVRPInstance) :
    (∀ file : List TourLine, (∀ l ∈ file, l.isMarker = false) →
      read_solution inst file = .ok { name := inst.name, vehicles := [] }) ∧
    (∀ zs : List Int, (∀ z ∈ zs, z ≠ -1) →
      readDeliveryNodes (inst.deliveries.length + 1) (zs.map TourLine.int) =
        .ok (zs.map (fun z =>
          if z ≤ ((inst.deliveries.length + 1 : ℕ) : Int) then z else DEPOT_NODE))) := by
  constructor
  · intro file hf
    unfold read_solution
    rw [dropToMarker_nil_of_no_marker file hf]
    rfl
  · intro zs hz
    induction zs with
    | nil => rfl
    | cons z zs ih =>
      simp only [List.map_cons, readDeliveryNodes]
      rw [if_neg (hz z (List.mem_cons_self z zs)),
        ih fun x hx => hz x (List.mem_cons_of_mem _ hx)]

/-- C7 counterexample: the marker-less file and the sentinel-less file both
decode successfully (to the empty and to a partial solution respectively)
instead of failing with the DecodingError the claim requires. -/
theorem C7_counterexample :
    read_solution instC7 fileNoMarker = .ok { name := "c7", vehicles := [] } ∧
    read_solution instC7 fileNoSentinel =
      .ok { name := "c7",
            vehicles := [{ origin := pt0, deliveries := [mkDelivery "d0" 1] }] } := by
  decide

/-- C7 amended witness: the concrete marker-less file satisfies the hypothesis
and decodes to the empty solution. -/
theorem C7_amended_lenient_witness :
    (∀ l ∈ fileNoMarker, l.isMarker = false) ∧
    read_solution instC7 fileNoMarker = .ok { name := "c7", vehicles := [] } :=
  ⟨by decide, (C7_amended_lenient instC7).1 fileNoMarker (by decide)⟩

/-- When the file holds a marker, appended lines land after the body. -/
theorem dropToMarker_append_of_marker (file extra : List TourLine)
    (h : file.any TourLine.isMarker = true) :
    dropToMarker (file ++ extra) = dropToMarker file ++ extra := by
  induction file with
  | nil => simp at h
  | cons l ls ih =>
    by_cases hl : l.isMarker
    · simp only [List.cons_append, dropToMarker, hl, if_true, List.append_eq]
    · have h2 : ls.any TourLine.isMarker = true := by
        simp only [List.any_cons, hl, Bool.false_or] at h
        exact h
      simp only [List.cons_append, dropToMarker, hl, Bool.false_eq_true, if_false]
      exact ih h2

/-- A non-empty body can only arise from a file holding a marker line. -/
theorem any_marker_of_mem_dropToMarker {file : List TourLine} {x : TourLine}
    (h : x ∈ dropToMarker file) : file.any TourLine.isMarker = true := by
  induction file with
  | nil => cases h
  | cons l ls ih =>
    by_cases hl : l.isMarker
    · simp [List.any_cons, hl]
    · simp only [dropToMarker, hl, Bool.false_eq_true, if_false] at h
      simp [List.any_cons, hl, ih h]

/-- Once the sentinel occurs in the body, lines appended after it do not change
the node stream that is read. -/
theorem readDeliveryNodes_append_sentinel (N : ℕ) (body extra : List TourLine)
    (h : TourLine.int (-1) ∈ body) :
    readDeliveryNodes N (body ++ extra) = readDeliveryNodes N body := by
  induction body with
  | nil => cases h
  | cons l ls ih =>
    cases l with
    | str s => simp [readDeliveryNodes]
    | int w =>
      by_cases hw : w = -1
      · subst hw
        simp [readDeliveryNodes]
      · have h2 : TourLine.int (-1) ∈ ls := by
          rcases List.mem_cons.mp h with he | h2
          · exact absurd (TourLine.int.inj he).symm hw
          · exact h2
        simp only [List.cons_append, readDeliveryNodes, if_neg hw, List.append_eq]
        rw [ih h2]

/-- C10: when the body contains the -1 sentinel, the decoded solution depends
only on what precedes it; appending any lines to the file leaves the decoded
solution unchanged. -/
theorem C10_ignores_after_sentinel (inst : CVRPInstance) (file extra : List TourLine)
    (hs : TourLine.int (-1) ∈ dropToMarker file) :
    read_solution inst (file ++ extra) = read_solution inst file := by
  have hm : file.any TourLine.isMarker = true := any_marker_of_mem_dropToMarker hs
  unfold read_solution
  rw [dropToMarker_append_of_marker file extra hm]
  unfold decode_body
  simp only [readDeliveryNodes_append_sentinel _ _ extra hs]

/-- C10 witness: appending a text line and a stray token after the sentinel of
the Example 1 file leaves the decoded solution unchanged. -/
theorem C10_ignores_after_sentinel_witness :
    TourLine.int (-1) ∈ dropToMarker fileEx1 ∧
    read_solution inst5 (fileEx1 ++ [.str "EOF", .int 99]) = read_solution inst5 fileEx1 :=
  ⟨by decide, C10_ignores_after_sentinel inst5 fileEx1 [.str "EOF", .int 99] (by decide)⟩

/-- Unfolding equation for fsLookup on a non-empty filesystem. -/
theorem fsLookup_cons (p : String × List TourLine) (t : FileSys) (n : String) :
    fsLookup (p :: t) n = if p.1 == n then some p.2 else fsLookup t n := by
  by_cases hb : (p.1 == n) = true
  · simp [fsLookup, List.find?, hb]
  · simp [fsLookup, List.find?, hb]

/-- Looking up a name in a filesystem filtered to exclude it yields nothing. -/
theorem fsLookup_filter_self (fs : FileSys) (n : String) :
    fsLookup (fs.filter (fun p => p.1 != n)) n = none := by
  induction fs with
  | nil => rfl
  | cons p ps ih =>
    rw [List.filter_cons]
    by_cases hb : (p.1 == n) = true
    · have hq : (p.1 != n) = false := by simp [bne, hb]
      rw [hq]
      simpa using ih
    · have hq : (p.1 != n) = true := by simp [bne, hb]
      rw [hq]
      simp only [if_true]
      rw [fsLookup_cons, if_neg hb]
      exact ih

/-- Filtering never resurrects a name that is already absent. -/
theorem fsLookup_filter_none (q : String × List TourLine → Bool) (fs : FileSys)
    (n : String) (h : fsLookup fs n = none) : fsLookup (fs.filter q) n = none := by
  induction fs with
  | nil => rfl
  | cons p ps ih =>
    rw [fsLookup_cons] at h
    by_cases hb : (p.1 == n) = true
    · rw [if_pos hb] at h
      cases h
    · rw [if_neg hb] at h
      rw [List.filter_cons]
      by_cases hq : q p = true
      · rw [hq]
        simp only [if_true]
        rw [fsLookup_cons, if_neg hb]
        exact ih h
      · rw [Bool.not_eq_true] at hq
        rw [hq]
        simp only [Bool.false_eq_true, if_false]
        exact ih h

/-- C8 counterexample: a solve run whose decode stage fails (tour body token -5)
propagates IndexError while all three auxiliary files are still present on the
filesystem, so the cleanup-on-every-exit-path claim fails. -/
theorem C8_counterexample :
    (solve instC8 none badOut []).1 = .error .indexError ∧
    (fsLookup (solve instC8 none badOut []).2 "vrp_input_temp_i8.vrp").isSome = true ∧
    (fsLookup (solve instC8 none badOut []).2 "vrp_input_temp_i8.par").isSome = true ∧
    (fsLookup (solve instC8 none badOut []).2 "vrp_output_temp_i8.vrp").isSome = true := by
  decide

/-- C8 amended: only on the success path does solve remove the three auxiliary
files; after a successful call none of them remains. -/
theorem C8_amended_cleanup_on_success (inst : CVRPInstance) (params : Option LKHParams)
    (out : List TourLine) (fs : FileSys) (sol : CVRPSolution) (fsFinal : FileSys)
    (h : solve inst params out fs = (.ok sol, fsFinal)) :
    fsLookup fsFinal (_get_auxiliary_file_names inst).input_vrp_file = none ∧
    fsLookup fsFinal (_get_auxiliary_file_names inst).input_par_file = none ∧
    fsLookup fsFinal (_get_auxiliary_file_names inst).output_tour_file = none := by
  unfold solve at h
  simp only [] at h
  split at h
  · simp at h
  · split at h
    · simp at h
    · split at h
      · simp at h
      · simp only [Prod.mk.injEq, Except.ok.injEq] at h
        obtain ⟨rfl, rfl⟩ := h
        rename_i u fs4 hrem
        unfold remove_auxiliary_files at hrem
        simp only [] at hrem
        split at hrem
        · simp at hrem
        · split at hrem
          · simp at hrem
          · split at hrem
            · simp at hrem
            · simp only [Prod.mk.injEq, Except.ok.injEq] at hrem
              obtain ⟨-, rfl⟩ := hrem
              rename_i xA fsA hA xB fsB hB xC fsC hC
              unfold fsRemove at hA hB hC
              split at hA
              · injection hA with hA2
                subst hA2
                split at hB
                · injection hB with hB2
                  subst hB2
                  split at hC
                  · injection hC with hC2
                    subst hC2
                    exact ⟨fsLookup_filter_none _ _ _
                        (fsLookup_filter_none _ _ _ (fsLookup_filter_self _ _)),
                      fsLookup_filter_none _ _ _ (fsLookup_filter_self _ _),
                      fsLookup_filter_self _ _⟩
                  · simp at hC
                · simp at hB
              · simp at hA

/-- C8 amended witness: a concrete successful solve run after which none of the
three auxiliary files remains. -/
theorem C8_amended_cleanup_on_success_witness :
    solve instC8 none goodOut [] =
      (.ok { name := "i8", vehicles := [{ origin := pt0, deliveries := [mkDelivery "d0" 1] }] },
       []) ∧
    fsLookup ([] : FileSys) (_get_auxiliary_file_names instC8).input_vrp_file = none ∧
    fsLookup ([] : FileSys) (_get_auxiliary_file_names instC8).input_par_file = none ∧
    fsLookup ([] : FileSys) (_get_auxiliary_file_names instC8).output_tour_file = none :=
  ⟨by decide,
   C8_amended_cleanup_on_success instC8 none goodOut []
     { name := "i8", vehicles := [{ origin := pt0, deliveries := [mkDelivery "d0" 1] }] }
     [] (by decide)⟩

/-- C9 counterexample: encoding the zero-delivery instance fails with ValueError
(raised by max() on an empty sequence inside the vehicle estimator), not with
the EncodingError the claim requires. -/
theorem C9_counterexample :
    (convert_instance_file instC9 {} []).1 = .error .valueError ∧
    (convert_instance_file instC9 {} []).1 ≠ .error .encodingError := by decide

/-- C9 amended: for every instance with zero deliveries, producing the problem
and parameter files fails with ValueError from the vehicle-count estimator,
after the problem file has already been written. -/
theorem C9_amended_value_error (inst : CVRPInstance) (params : LKHParams)
    (fs : FileSys) (h : inst.deliveries = []) :
    (convert_instance_file inst params fs).1 = .error .valueError := by
  simp [convert_instance_file, _get_num_vehicles, maxOfSizes, h]

/-- C9 amended witness: the concrete zero-delivery instance fails with
ValueError. -/
theorem C9_amended_value_error_witness :
    instC9.deliveries = [] ∧ (convert_instance_file instC9 {} []).1 = .error .valueError :=
  ⟨by decide, C9_amended_value_error instC9 {} [] (by decide)⟩

end LKH3
